import Mathlib

/-!
Shallow embedding of the notebooks repository's data pipeline
(src/python_code.py, src/PGKYP.py, src/app.py, src/mini.py).

The pipeline loads three tables (microseismic events, well locations,
well volumes), derives month keys and well identifiers, aggregates
monthly event counts and per-well volumes, computes a Pearson
correlation matrix, and joins everything into a final per-well table.

Conventions of the embedding:
* timestamps are represented by their month period key (a natural
  number counting months), matching the `to_period('M')` granularity at
  which every computation in the source operates; well-volume rows are
  listed by the first day of each month (per the notebook), so the
  month key determines `START_DATE`;
* float columns are represented by exact rationals `ℚ`;
* the Pearson coefficient, the one computation involving a square root,
  is valued in `ℝ`, with a `none` result where pandas produces NaN
  (zero variance of either series);
* pandas operations are modelled by their documented semantics:
  `resample('M').count()` bins every month from the first to the last
  index month; `Series.str.replace(pat, '')` removes every occurrence
  of `pat`; `Series.str.split('-', expand=True)` produces as many
  columns as the maximal number of parts; `pivot_table` defaults to
  `aggfunc='mean'` and drops null column keys; `DataFrame.corr` yields
  NaN for zero-variance columns; `fillna(0)` replaces nulls by zero.
-/

/-- One row of the microseismic table: the month period of `Date`,
`Moment Magnitude`, and the spatial columns
`Easting [m]`, `Northing [m]`, `Depth_SS [m]`. -/
structure MSEvent where
  month : ℕ
  mag : ℚ
  easting : ℚ
  northing : ℚ
  depth : ℚ
deriving DecidableEq

/-- One row of the well-locations table: `Name`, `Type`, `x`, `y`, `z`. -/
structure WellRow where
  name : String
  wtype : String
  x : ℚ
  y : ℚ
  z : ℚ
deriving DecidableEq

/-- One raw row of the well-volumes table: `HOLE_NAME`, the month period
of `START_DATE`, and the four measured volume columns. -/
structure VolRaw where
  hole_name : String
  start_month : ℕ
  oil : ℚ
  water : ℚ
  steam_injection : ℚ
  water_injection : ℚ
deriving DecidableEq

/-- `well_volumes['Moment ...']`-side derived column
`INJECTED = STEAM_INJECTION + WATER_INJECTION`. -/
def injectedOf (r : VolRaw) : ℚ := r.steam_injection + r.water_injection

/-- Derived column `PRODUCED = well_volumes[['OIL','WATER']].sum(axis=1)`. -/
def producedOf (r : VolRaw) : ℚ := r.oil + r.water

/-- Derived column `TOTAL = -INJECTED + PRODUCED`. -/
def totalOf (r : VolRaw) : ℚ := -(injectedOf r) + producedOf r

/-- Number of events of `events` whose `Date` falls in month `m`
(the per-bin result of `resample('M').count()` on the `Events = 1`
marker column). -/
def monthCount (events : List MSEvent) (m : ℕ) : ℕ :=
  (events.filter (fun e => e.month == m)).length

/-- First (smallest) month of the event index; `0` for an empty table. -/
def loMonthD : List MSEvent → ℕ
  | [] => 0
  | e :: rest => (rest.map (fun x => x.month)).foldl min e.month

/-- Last (largest) month of the event index; `0` for an empty table. -/
def hiMonthD : List MSEvent → ℕ
  | [] => 0
  | e :: rest => (rest.map (fun x => x.month)).foldl max e.month

/-- `ms_fieldwide = microseismic[['Events']].resample('M').count()` with
the index converted by `to_period('M')`: one row `(month, count)` for
EVERY month between the first and the last event month inclusive
(resample bins the whole span, an empty bin counts 0). -/
def msFieldwide (events : List MSEvent) : List (ℕ × ℕ) :=
  match events with
  | [] => []
  | e :: rest =>
      (List.range (hiMonthD (e :: rest) + 1 - loMonthD (e :: rest))).map
        (fun k => (loMonthD (e :: rest) + k,
                   monthCount (e :: rest) (loMonthD (e :: rest) + k)))

/-- The app's magnitude filter
`microseismic = microseismic[microseismic['Moment Magnitude'] > mmin]`:
strictly greater than the slider value. -/
def filterMag (events : List MSEvent) (mmin : ℚ) : List MSEvent :=
  events.filter (fun e => decide (mmin < e.mag))

/-- The characters of the fixed literal `'PGKYP'` removed from well
names by `well_locations['Name'].str.replace('PGKYP','')`. -/
def pgkypChars : List Char := ['P', 'G', 'K', 'Y', 'P']

/-- `Series.str.replace('PGKYP','')` on one string: remove every
(leftmost, non-overlapping) occurrence of `'PGKYP'`. -/
def stripOcc : List Char → List Char
  | 'P' :: 'G' :: 'K' :: 'Y' :: 'P' :: rest => stripOcc rest
  | c :: cs => c :: stripOcc cs
  | [] => []

/-- Whether `'PGKYP'` occurs anywhere in the string. -/
def hasPGKYP : List Char → Bool
  | 'P' :: 'G' :: 'K' :: 'Y' :: 'P' :: _ => true
  | _ :: cs => hasPGKYP cs
  | [] => false

/-- `well_locations['w_id'] = well_locations['Name'].str.replace('PGKYP','')`
applied to one `Name`. -/
def wId (name : String) : String := ⟨stripOcc name.data⟩

/-- `Series.str.split('-')` on one string: split on every `'-'`. -/
def splitD : List Char → List (List Char)
  | [] => [[]]
  | c :: cs =>
      match splitD cs with
      | [] => [[c]]
      | h :: t => if c = '-' then [] :: h :: t else (c :: h) :: t

/-- Number of parts `str.split('-')` produces for one `HOLE_NAME`. -/
def numParts (s : List Char) : ℕ := (splitD s).length

/-- Number of columns of `str.split('-', expand=True)` over the whole
`HOLE_NAME` column: the maximal part count over the rows. -/
def maxParts (names : List (List Char)) : ℕ :=
  (names.map numParts).foldl max 0

deriving instance DecidableEq for Except

/-- The error pandas raises when the expanded split is assigned to the
two columns `['prefix','w_id']` but does not have exactly 2 columns. -/
def splitErrMsg : String := "ValueError: Columns must be same length as key"

/-- The `(prefix, w_id)` pair a row receives when the two-column
assignment succeeds: first part, and second part or null. -/
def splitRow (s : List Char) : List Char × Option (List Char) :=
  match splitD s with
  | [] => ([], none)
  | [p] => (p, none)
  | p :: w :: _ => (p, some w)

/-- `well_volumes[['prefix','w_id']] = well_volumes['HOLE_NAME'].str.split('-',expand=True)`:
succeeds (row-wise pairs) iff the expanded frame has exactly 2 columns,
otherwise raises `ValueError`. -/
def splitAssign (names : List (List Char)) :
    Except String (List (List Char × Option (List Char))) :=
  if maxParts names = 2 then .ok (names.map splitRow) else .error splitErrMsg

/-- One row of the well-volumes table after normalization: the derived
columns `INJECTED`, `PRODUCED`, `TOTAL` and the split columns
`prefix` (here `pfx`) and `w_id` (here `wid`, null when the row's
`HOLE_NAME` produced a single part). -/
structure VolN where
  hole_name : String
  start_month : ℕ
  oil : ℚ
  water : ℚ
  steam_injection : ℚ
  water_injection : ℚ
  injected : ℚ
  produced : ℚ
  total : ℚ
  pfx : String
  wid : Option String
deriving DecidableEq

/-- Build a normalized volume row from a raw row and its split pair. -/
def mkVolN (r : VolRaw) (pw : List Char × Option (List Char)) : VolN :=
  { hole_name := r.hole_name
    start_month := r.start_month
    oil := r.oil
    water := r.water
    steam_injection := r.steam_injection
    water_injection := r.water_injection
    injected := injectedOf r
    produced := producedOf r
    total := totalOf r
    pfx := ⟨pw.1⟩
    wid := pw.2.map (fun w => (⟨w⟩ : String)) }

/-- Normalization of the well-volumes table: derive `INJECTED`,
`PRODUCED`, `TOTAL` and assign the split `['prefix','w_id']` columns;
fails with the pandas `ValueError` when the expanded split does not
have exactly two columns. -/
def normalizeVols (rows : List VolRaw) : Except String (List VolN) :=
  (splitAssign (rows.map (fun r => r.hole_name.data))).map
    (fun pairs => (rows.zip pairs).map (fun rp => mkVolN rp.1 rp.2))

/-- Rows of the volume table usable by `pivot_table`/`groupby` keyed on
`w_id`: pandas drops rows whose key is null. -/
def validV (vols : List VolN) : List VolN :=
  vols.filter (fun r => r.wid.isSome)

/-- Distinct month keys present among the rows with a non-null `w_id`,
sorted ascending: the index of
`volume_per_well = well_volumes.pivot_table(index='START_DATE', columns='w_id', values='TOTAL')`
after `to_period('M')`. -/
def pivotMonths (vols : List VolN) : List ℕ :=
  List.insertionSort (fun a b => a ≤ b) (((validV vols).map (fun r => r.start_month)).dedup)

/-- Distinct non-null `w_id` values, sorted ascending: the columns of
`volume_per_well` and likewise the group keys of
`summed_volumes = well_volumes.groupby(by='w_id').sum()`. -/
def sortedWids (vols : List VolN) : List String :=
  List.insertionSort (fun a b => a ≤ b) ((vols.filterMap (fun r => r.wid)).dedup)

/-- The rows aggregated into the `(month m, well w)` cell of the pivot. -/
def groupMW (vols : List VolN) (m : ℕ) (w : String) : List VolN :=
  vols.filter (fun r => r.wid == some w && r.start_month == m)

/-- One cell of `volume_per_well` before `fillna`: `pivot_table` uses its
default `aggfunc='mean'`, so the cell is the arithmetic mean of the
`TOTAL` values of the matching rows, or null when no row matches. -/
def cellOf (vols : List VolN) (m : ℕ) (w : String) : Option ℚ :=
  let g := groupMW vols m w
  if g.length = 0 then none
  else some ((g.map (fun r => r.total)).sum / (g.length : ℚ))

/-- One cell of `volume_per_well` after `volume_per_well.fillna(0, inplace=True)`:
nulls are replaced by 0, so every cell holds a value. -/
def filledCell (vols : List VolN) (m : ℕ) (w : String) : Option ℚ :=
  some ((cellOf vols m w).getD 0)

/-- Index of `merged_final = pd.merge(ms_fieldwide, volume_per_well, left_index=True, right_index=True)`:
inner join, the months of `ms_fieldwide` that also carry volume rows. -/
def mergedMonths (events : List MSEvent) (vols : List VolN) : List ℕ :=
  ((msFieldwide events).map Prod.fst).filter (fun m => (pivotMonths vols).contains m)

/-- The `Events` column of `merged_final`: monthly event counts on the
merged month index. -/
def eventsSeries (events : List MSEvent) (vols : List VolN) : List ℚ :=
  (mergedMonths events vols).map (fun m => (monthCount events m : ℚ))

/-- The column of well `w` in `merged_final`: its filled monthly totals
on the merged month index. -/
def wellSeries (events : List MSEvent) (vols : List VolN) (w : String) : List ℚ :=
  (mergedMonths events vols).map (fun m => (cellOf vols m w).getD 0)

/-- Column labels of `merged_final` (and hence the row/column labels of
`corr_per_well`): the `Events` column of `ms_fieldwide` followed by the
well columns of `volume_per_well`. -/
def corrIndexL (vols : List VolN) : List String :=
  "Events" :: sortedWids vols

/-- The numeric series behind one `merged_final` column label. -/
def labelSeries (events : List MSEvent) (vols : List VolN) (l : String) : List ℚ :=
  if l = "Events" then eventsSeries events vols else wellSeries events vols l

/-- The numeric columns of `merged_final`, in label order: the input of
`merged_final.corr()`. -/
def mergedCols (events : List MSEvent) (vols : List VolN) : List (List ℚ) :=
  (corrIndexL vols).map (labelSeries events vols)

/-- Scaled second moment of two aligned series:
`n * Σ x*y - Σ x * Σ y` over the first `n = min |x| |y|` pairs (the
series of one frame are equally long, so `n` is just the row count).
`sXY x x` is then `n` squared times the variance of `x`, and the Pearson
coefficient is `sXY x y / sqrt (sXY x x * sXY y y)`. -/
def sXY (x y : List ℚ) : ℚ :=
  ((min x.length y.length : ℕ) : ℚ) * (List.zipWith (fun a b => a * b) x y).sum
    - x.sum * y.sum

/-- One Pearson coefficient as `DataFrame.corr` computes it: null (NaN)
when either series has zero variance (this includes any series of fewer
than two observations and any constant series), otherwise
`sXY x y / sqrt (sXY x x * sXY y y)`. -/
noncomputable def corrE (x y : List ℚ) : Option ℝ :=
  if sXY x x * sXY y y = 0 then none
  else some ((sXY x y : ℝ) / Real.sqrt ((sXY x x * sXY y y : ℚ) : ℝ))

/-- `corr_per_well = merged_final.corr()`: the full pairwise matrix over
the given columns. -/
noncomputable def corrMatrix (cols : List (List ℚ)) : List (List (Option ℝ)) :=
  cols.map (fun x => cols.map (fun y => corrE x y))

/-- `corr_per_well[corr_per_well == 1] = np.nan`: a coefficient exactly
equal to 1 becomes null; nulls stay null (NaN compares unequal to 1). -/
noncomputable def nullOnes (o : Option ℝ) : Option ℝ :=
  o.bind (fun v => if v = 1 then none else some v)

/-- The correlation matrix of the pipeline, over `merged_final`'s
numeric columns. -/
noncomputable def corrPerWell (events : List MSEvent) (vols : List VolN) :
    List (List (Option ℝ)) :=
  corrMatrix (mergedCols events vols)

/-- The `Events` column of `corr_per_well` after the nulling step, at row
label `l`: the final `Correlation` value joined onto the wells table. -/
noncomputable def corrEventsAt (events : List MSEvent) (vols : List VolN)
    (l : String) : Option ℝ :=
  nullOnes (corrE (labelSeries events vols l) (eventsSeries events vols))

/-- One row of `summed_volumes = well_volumes.groupby(by='w_id').sum()`:
the numeric columns summed over a well's rows. -/
structure SummedVol where
  oil : ℚ
  water : ℚ
  steam_injection : ℚ
  water_injection : ℚ
  injected : ℚ
  produced : ℚ
  total : ℚ
deriving DecidableEq

/-- The `summed_volumes` row of well `w`. -/
def sumBy (vols : List VolN) (w : String) : SummedVol :=
  let g := vols.filter (fun r => r.wid == some w)
  { oil := (g.map (fun r => r.oil)).sum
    water := (g.map (fun r => r.water)).sum
    steam_injection := (g.map (fun r => r.steam_injection)).sum
    water_injection := (g.map (fun r => r.water_injection)).sum
    injected := (g.map (fun r => r.injected)).sum
    produced := (g.map (fun r => r.produced)).sum
    total := (g.map (fun r => r.total)).sum }

/-- `wells = pd.merge(well_locations, summed_volumes, left_index=True, right_index=True)`:
inner join of the `w_id`-indexed locations with the per-well sums. -/
def wellsJoin (locs : List WellRow) (vols : List VolN) :
    List (WellRow × SummedVol) :=
  locs.flatMap (fun lr =>
    ((sortedWids vols).filter (fun w => w == wId lr.name)).map
      (fun w => (lr, sumBy vols w)))

/-- One row of the final per-well table `wells_final`. -/
structure FinalRow where
  wid : String
  name : String
  wtype : String
  x : ℚ
  y : ℚ
  z : ℚ
  sums : SummedVol
  correlation : Option ℝ

/-- `wells_final = pd.merge(wells, corr_per_well[['Events']], left_index=True, right_index=True)`
renamed `Events → Correlation`: wells joined with the nulled correlation
column by matching `w_id` against the correlation row labels. -/
noncomputable def wellsFinal (events : List MSEvent) (locs : List WellRow)
    (vols : List VolN) : List FinalRow :=
  (wellsJoin locs vols).flatMap (fun p =>
    ((corrIndexL vols).filter (fun l => l == wId p.1.name)).map (fun l =>
      { wid := wId p.1.name
        name := p.1.name
        wtype := p.1.wtype
        x := p.1.x
        y := p.1.y
        z := p.1.z
        sums := p.2
        correlation := corrEventsAt events vols l }))

/-- The whole batch pipeline of `python_code.py`/`PGKYP.py`, from the
three parsed tables to `wells_final`; it fails (the script aborts) when
the volume normalization raises. -/
noncomputable def pipeline (events : List MSEvent) (locs : List WellRow)
    (vraw : List VolRaw) : Except String (List FinalRow) :=
  (normalizeVols vraw).map (fun vols => wellsFinal events locs vols)

/-- The app variant of the pipeline (`app.py`): identical except that
the events are first filtered by the minimum-magnitude slider. -/
noncomputable def appPipeline (events : List MSEvent) (locs : List WellRow)
    (vraw : List VolRaw) (mmin : ℚ) : Except String (List FinalRow) :=
  pipeline (filterMag events mmin) locs vraw

/-- What one run of `app.py` renders: which of the three upload slots
show the loaded checkmark, whether the pipeline body ran (and with what
outcome), and whether the `st.info` status prompt is shown. -/
structure AppRender where
  msLoaded : Bool
  wlLoaded : Bool
  vfLoaded : Bool
  run : Option (Except String (List FinalRow))
  info : Bool

/-- The gating logic of `app.py`: the pipeline body runs iff all three
files are supplied (`if msfile and wellfile and volfile:`), otherwise
the `st.info` prompt is rendered. -/
noncomputable def appRender (msO : Option (List MSEvent))
    (wlO : Option (List WellRow)) (vfO : Option (List VolRaw))
    (mmin : ℚ) : AppRender :=
  { msLoaded := msO.isSome
    wlLoaded := wlO.isSome
    vfLoaded := vfO.isSome
    run :=
      match msO, wlO, vfO with
      | some ms, some wl, some vf => some (appPipeline ms wl vf mmin)
      | _, _, _ => none
    info := !(msO.isSome && wlO.isSome && vfO.isSome) }

/-- The three charts of `app.py` are rendered exactly when the pipeline
body ran to completion without raising. -/
def chartsRendered (r : AppRender) : Prop :=
  ∃ out, r.run = some (Except.ok out)

/-! ### Helper lemmas -/

lemma init_le_foldl_max (l : List ℕ) (a : ℕ) : a ≤ l.foldl max a := by
  induction l generalizing a with
  | nil => exact le_refl a
  | cons b t ih => exact le_trans (le_max_left a b) (ih (max a b))

lemma mem_le_foldl_max (l : List ℕ) (a : ℕ) : ∀ x ∈ l, x ≤ l.foldl max a := by
  induction l generalizing a with
  | nil => intro x hx; cases hx
  | cons b t ih =>
      intro x hx
      rcases List.mem_cons.1 hx with h | h
      · subst h
        exact le_trans (le_max_right a x) (init_le_foldl_max t (max a x))
      · exact ih (max a b) x h

lemma splitD_no_dash (n : List Char) (h : ∀ c ∈ n, ¬ c = '-') :
    splitD n = [n] := by
  induction n with
  | nil => rfl
  | cons c cs ih =>
      have hcs : splitD cs = [cs] := ih (fun c hc => h c (List.mem_cons_of_mem _ hc))
      have hc : ¬ c = '-' := h c (List.mem_cons_self c cs)
      simp [splitD, hcs, hc]

/-! ### Claim C5 -/

/-- Claim C5: for every Volume row, the derived scalars satisfy exactly
`injected = steam_injection + water_injection`, `produced = oil + water`
and `total = (oil + water) - (steam_injection + water_injection)`, both
for the raw derivation and on every row of the normalized table. -/
theorem C5_volume_identities :
    (∀ r : VolRaw,
      injectedOf r = r.steam_injection + r.water_injection ∧
      producedOf r = r.oil + r.water ∧
      totalOf r = (r.oil + r.water) - (r.steam_injection + r.water_injection)) ∧
    (∀ (rows : List VolRaw) (nrows : List VolN),
      normalizeVols rows = Except.ok nrows →
      ∀ n ∈ nrows,
        n.injected = n.steam_injection + n.water_injection ∧
        n.produced = n.oil + n.water ∧
        n.total = (n.oil + n.water) - (n.steam_injection + n.water_injection)) := by
  constructor
  · intro r
    refine ⟨rfl, rfl, ?_⟩
    simp only [totalOf, injectedOf, producedOf]
    ring
  · intro rows nrows h n hn
    unfold normalizeVols at h
    cases hsa : splitAssign (rows.map (fun r => r.hole_name.data)) with
    | error e => rw [hsa] at h; simp [Except.map] at h
    | ok pairs =>
        rw [hsa] at h
        simp only [Except.map, Except.ok.injEq] at h
        subst h
        rcases List.mem_map.1 hn with ⟨rp, _, rfl⟩
        refine ⟨rfl, rfl, ?_⟩
        simp only [mkVolN, totalOf, injectedOf, producedOf]
        ring

/-- Witness for C5 at the spec's own scenario: `HOLE_NAME = "PGKYP-07"`,
`OIL = 100`, `WATER = 50`, `STEAM_INJECTION = 20`, `WATER_INJECTION = 10`
normalizes successfully and its derived row satisfies the identity
(`injected = 30`, `produced = 150`, `total = 120`). -/
theorem C5_scenario_witness :
    normalizeVols [⟨"PGKYP-07", 0, 100, 50, 20, 10⟩] =
      Except.ok (([(⟨"PGKYP-07", 0, 100, 50, 20, 10⟩ : VolRaw)].zip
        [("PGKYP".data, some "07".data)]).map (fun rp => mkVolN rp.1 rp.2)) ∧
    (∀ n ∈ (([(⟨"PGKYP-07", 0, 100, 50, 20, 10⟩ : VolRaw)].zip
        [("PGKYP".data, some "07".data)]).map (fun rp => mkVolN rp.1 rp.2)),
      n.injected = n.steam_injection + n.water_injection ∧
      n.produced = n.oil + n.water ∧
      n.total = (n.oil + n.water) - (n.steam_injection + n.water_injection)) ∧
    injectedOf ⟨"PGKYP-07", 0, 100, 50, 20, 10⟩ = 30 ∧
    producedOf ⟨"PGKYP-07", 0, 100, 50, 20, 10⟩ = 150 ∧
    totalOf ⟨"PGKYP-07", 0, 100, 50, 20, 10⟩ = 120 := by
  have hsa : splitAssign ["PGKYP-07".data] = .ok [("PGKYP".data, some "07".data)] := by
    decide
  have hnorm : normalizeVols [⟨"PGKYP-07", 0, 100, 50, 20, 10⟩] =
      Except.ok (([(⟨"PGKYP-07", 0, 100, 50, 20, 10⟩ : VolRaw)].zip
        [("PGKYP".data, some "07".data)]).map (fun rp => mkVolN rp.1 rp.2)) := by
    unfold normalizeVols
    rw [show ([(⟨"PGKYP-07", 0, 100, 50, 20, 10⟩ : VolRaw)].map
          (fun r => r.hole_name.data)) = ["PGKYP-07".data] from rfl, hsa]
    rfl
  refine ⟨hnorm, C5_volume_identities.2 _ _ hnorm, ?_, ?_, ?_⟩
  · norm_num [injectedOf]
  · norm_num [producedOf]
  · norm_num [totalOf, injectedOf, producedOf]

/-! ### Claim C9 -/

/-- Claim C9: the app's minimum-magnitude filter is strict: the retained
events are exactly those with `Moment Magnitude` strictly greater than
the slider value, an event whose magnitude equals the threshold is
excluded, and everything downstream of the app consumes the filtered
table. -/
theorem C9_strict_magnitude_filter :
    ∀ (events : List MSEvent) (mmin : ℚ) (e : MSEvent),
      (e ∈ filterMag events mmin ↔ e ∈ events ∧ mmin < e.mag) ∧
      (e.mag = mmin → e ∉ filterMag events mmin) ∧
      (∀ (locs : List WellRow) (vraw : List VolRaw),
        appPipeline events locs vraw mmin = pipeline (filterMag events mmin) locs vraw) := by
  intro events mmin e
  have hmem : e ∈ filterMag events mmin ↔ e ∈ events ∧ mmin < e.mag := by
    simp [filterMag, List.mem_filter]
  refine ⟨hmem, ?_, fun _ _ => rfl⟩
  intro hm hcontra
  have := (hmem.1 hcontra).2
  rw [hm] at this
  exact lt_irrefl _ this

/-- Witness for C9: an event with magnitude exactly 1 is dropped by the
filter at threshold 1. -/
theorem C9_boundary_excluded_witness :
    (⟨0, 1, 0, 0, 0⟩ : MSEvent) ∉ filterMag [⟨0, 1, 0, 0, 0⟩] 1 :=
  (C9_strict_magnitude_filter [⟨0, 1, 0, 0, 0⟩] 1 ⟨0, 1, 0, 0, 0⟩).2.1 rfl

/-! ### Claim C10 -/

/-- Claim C10: the pipeline from the three parsed tables (plus the
magnitude threshold in the app variant) is deterministic: equal inputs
produce equal outputs, with no hidden state. The embedding is a pure
function of the inputs, so determinism is substitution. -/
theorem C10_deterministic :
    ∀ (e1 e2 : List MSEvent) (l1 l2 : List WellRow) (v1 v2 : List VolRaw)
      (m1 m2 : ℚ),
      e1 = e2 → l1 = l2 → v1 = v2 → m1 = m2 →
      pipeline e1 l1 v1 = pipeline e2 l2 v2 ∧
      appPipeline e1 l1 v1 m1 = appPipeline e2 l2 v2 m2 := by
  intro e1 e2 l1 l2 v1 v2 m1 m2 he hl hv hm
  subst he; subst hl; subst hv; subst hm
  exact ⟨rfl, rfl⟩

/-- Witness for C10 at a concrete input. -/
theorem C10_deterministic_witness :
    pipeline [] [] [] = pipeline [] [] [] ∧
    appPipeline [] [] [] 1 = appPipeline [] [] [] 1 :=
  C10_deterministic [] [] [] [] [] [] 1 1 rfl rfl rfl rfl

/-! ### Claim C1 -/

/-- Counterexample to C1 as stated: with events only in months 0 and 2,
`resample('M').count()` produces a row for the empty gap month 1 with
count 0 — a zero-event month inside the span is NOT absent. -/
theorem C1_gap_month_present_cex :
    msFieldwide [⟨0, 1, 0, 0, 0⟩, ⟨2, 1, 0, 0, 0⟩] = [(0, 1), (1, 0), (2, 1)] ∧
    (1, 0) ∈ msFieldwide [⟨0, 1, 0, 0, 0⟩, ⟨2, 1, 0, 0, 0⟩] ∧
    ¬ (∀ p ∈ msFieldwide [⟨0, 1, 0, 0, 0⟩, ⟨2, 1, 0, 0, 0⟩], 0 < p.2) := by
  decide

/-- Claim C1 amended: `MonthlyEventCount` is ordered ascending by month
key, but gaps ARE filled — every calendar month from the first to the
last event month appears as a row, a zero-event month with count 0, and
every row's count is the number of events in its month. -/
theorem C1_resample_fills_gap_months :
    ∀ (events : List MSEvent), events ≠ [] →
      List.Sorted (· < ·) ((msFieldwide events).map Prod.fst) ∧
      (∀ m, loMonthD events ≤ m → m ≤ hiMonthD events →
        (m, monthCount events m) ∈ msFieldwide events) ∧
      (∀ p ∈ msFieldwide events,
        p.2 = monthCount events p.1 ∧
        loMonthD events ≤ p.1 ∧ p.1 ≤ hiMonthD events) := by
  intro events hne
  match events with
  | [] => exact absurd rfl hne
  | e :: rest =>
      have hms : msFieldwide (e :: rest) =
          (List.range (hiMonthD (e :: rest) + 1 - loMonthD (e :: rest))).map
            (fun k => (loMonthD (e :: rest) + k,
                       monthCount (e :: rest) (loMonthD (e :: rest) + k))) := rfl
      refine ⟨?_, ?_, ?_⟩
      · rw [hms, List.map_map]
        have : (Prod.fst ∘ fun k => (loMonthD (e :: rest) + k,
            monthCount (e :: rest) (loMonthD (e :: rest) + k))) =
            (fun k => loMonthD (e :: rest) + k) := rfl
        rw [this]
        exact (List.pairwise_map).2
          ((List.pairwise_lt_range _).imp (fun h => by omega))
      · intro m h1 h2
        rw [hms]
        refine List.mem_map.2 ⟨m - loMonthD (e :: rest), List.mem_range.2 (by omega), ?_⟩
        have : loMonthD (e :: rest) + (m - loMonthD (e :: rest)) = m := by omega
        rw [this]
      · intro p hp
        rw [hms] at hp
        rcases List.mem_map.1 hp with ⟨k, hk, rfl⟩
        have hk2 := List.mem_range.1 hk
        exact ⟨rfl, by omega, by omega⟩

/-- Witness for C1 at a nonempty concrete event table. -/
theorem C1_span_witness :
    ([⟨0, 1, 0, 0, 0⟩, ⟨2, 1, 0, 0, 0⟩] : List MSEvent) ≠ [] ∧
    List.Sorted (· < ·)
      ((msFieldwide [⟨0, 1, 0, 0, 0⟩, ⟨2, 1, 0, 0, 0⟩]).map Prod.fst) ∧
    (1, monthCount [⟨0, 1, 0, 0, 0⟩, ⟨2, 1, 0, 0, 0⟩] 1) ∈
      msFieldwide [⟨0, 1, 0, 0, 0⟩, ⟨2, 1, 0, 0, 0⟩] := by
  have hne : ([⟨0, 1, 0, 0, 0⟩, ⟨2, 1, 0, 0, 0⟩] : List MSEvent) ≠ [] := by
    intro h; cases h
  have h := C1_resample_fills_gap_months [⟨0, 1, 0, 0, 0⟩, ⟨2, 1, 0, 0, 0⟩] hne
  exact ⟨hne, h.1, h.2.1 1 (by decide) (by decide)⟩

/-! ### Claim C3 -/

/-- Counterexample to C3 as stated: a `HOLE_NAME` with zero `'-'`
delimiters does NOT make normalization fail when another row has
exactly one delimiter — the assignment succeeds and silently gives the
zero-delimiter row a partial pair (whole name, null). -/
theorem C3_zero_delim_silent_cex :
    numParts "BADNAME".data = 1 ∧
    splitAssign ["PGKYP-07".data, "BADNAME".data] =
      Except.ok [("PGKYP".data, some "07".data), ("BADNAME".data, none)] := by
  decide

/-- Claim C3 amended: a `HOLE_NAME` with more than one `'-'` makes the
two-column assignment fail with the pandas `ValueError` (the surface of
the spec's `ParseError`), and the assignment fails exactly when the
expanded split does not have two columns; but a row with zero
delimiters alongside rows giving two columns is silently assigned
`(whole name, null w_id)` instead of failing. -/
theorem C3_split_assignment_arity :
    ∀ (names : List (List Char)) (n : List Char),
      (n ∈ names → 2 < numParts n → splitAssign names = Except.error splitErrMsg) ∧
      (maxParts names = 2 → n ∈ names → (∀ c ∈ n, ¬ c = '-') →
        ∃ L, splitAssign names = Except.ok L ∧
          (n, (none : Option (List Char))) ∈ L) := by
  intro names n
  constructor
  · intro hn hparts
    have hle : numParts n ≤ maxParts names :=
      mem_le_foldl_max _ 0 _ (List.mem_map_of_mem _ hn)
    unfold splitAssign
    rw [if_neg (by omega)]
  · intro hmax hn hnodash
    refine ⟨names.map splitRow, ?_, ?_⟩
    · unfold splitAssign
      rw [if_pos hmax]
    · have hrow : splitRow n = (n, none) := by
        simp [splitRow, splitD_no_dash n hnodash]
      exact hrow ▸ List.mem_map_of_mem splitRow hn

/-- Witness for C3: the concrete two-row column
`["PGKYP-07", "BADNAME"]` satisfies the amended claim — the assignment
succeeds and the zero-delimiter row gets a null `w_id`. -/
theorem C3_silent_null_witness :
    ∃ L, splitAssign ["PGKYP-07".data, "BADNAME".data] = Except.ok L ∧
      ("BADNAME".data, (none : Option (List Char))) ∈ L :=
  (C3_split_assignment_arity ["PGKYP-07".data, "BADNAME".data] "BADNAME".data).2
    (by decide) (by decide) (by decide)

/-! ### Claim C2 -/

/-- Counterexample to C2 as stated: `str.replace('PGKYP','')` leaves a
prefix-less `Name` unchanged (not null/empty), and it DOES alter a
non-prefix occurrence of the literal. -/
theorem C2_absent_replace_noop_cex :
    wId "ABC" = "ABC" ∧ ("ABC" : String) ≠ "" ∧
    wId "ABPGKYPCD" = "ABCD" ∧ ("ABCD" : String) ≠ "ABPGKYPCD" := by
  decide

lemma stripOcc_no_occ (l : List Char) (h : hasPGKYP l = false) :
    stripOcc l = l := by
  induction l using stripOcc.induct with
  | case1 rest ih => simp [hasPGKYP] at h
  | case2 c cs h2 ih =>
      rw [hasPGKYP.eq_2 c cs h2] at h
      rw [stripOcc.eq_2 c cs h2, ih h]
  | case3 => rfl

/-- Claim C2 amended: `w_id` is the well's `Name` with EVERY occurrence
of the literal `'PGKYP'` removed (in particular a leading occurrence is
stripped), and when the literal does not occur the derivation is a
no-op: `w_id` equals `Name` unchanged, not a null/empty id. -/
theorem C2_replace_removes_all_occurrences :
    ∀ (name : String),
      (hasPGKYP name.data = false → wId name = name) ∧
      wId ⟨pgkypChars ++ name.data⟩ = wId name := by
  intro name
  constructor
  · intro h
    show (⟨stripOcc name.data⟩ : String) = name
    rw [stripOcc_no_occ name.data h]
  · show (⟨stripOcc (pgkypChars ++ name.data)⟩ : String) = ⟨stripOcc name.data⟩
    rfl

/-- Witness for C2: `"ABC"` has no occurrence of the literal and is
mapped to itself, and a leading `"PGKYP"` is stripped from
`"PGKYP-07"`. -/
theorem C2_no_occurrence_witness :
    hasPGKYP "ABC".data = false ∧ wId "ABC" = "ABC" ∧
    wId ⟨pgkypChars ++ "-07".data⟩ = wId "-07" :=
  ⟨by decide, (C2_replace_removes_all_occurrences "ABC").1 (by decide),
    (C2_replace_removes_all_occurrences "-07").2⟩

/-! ### Claim C4 -/

/-- A normalized volume row of well `07` in month 0 with all measured
volumes zero (`TOTAL = 0`). -/
def rA : VolN :=
  { hole_name := "PGKYP-07", start_month := 0, oil := 0, water := 0,
    steam_injection := 0, water_injection := 0, injected := 0,
    produced := 0, total := 0, pfx := "PGKYP", wid := some "07" }

/-- A second normalized volume row of the same well and month with
`OIL = 2` (`TOTAL = 2`). -/
def rB : VolN :=
  { hole_name := "PGKYP-07", start_month := 0, oil := 2, water := 0,
    steam_injection := 0, water_injection := 0, injected := 0,
    produced := 2, total := 2, pfx := "PGKYP", wid := some "07" }

/-- Counterexample to C4 as stated: with two records of the same well in
the same month (totals 0 and 2), the pivot cell holds their arithmetic
mean 1 — `pivot_table`'s default `aggfunc='mean'` — which is neither
record's total taken as-is. -/
theorem C4_duplicate_mean_cex :
    cellOf [rA, rB] 0 "07" = some 1 ∧
    rA.total = 0 ∧ rB.total = 2 ∧ (1 : ℚ) ≠ 0 ∧ (1 : ℚ) ≠ 2 := by
  have hg : groupMW [rA, rB] 0 "07" = [rA, rB] := by decide
  refine ⟨?_, rfl, rfl, by norm_num, by norm_num⟩
  rw [cellOf, hg]
  norm_num [rA, rB]

/-- Claim C4 amended: `VolumePerWell` has a month row exactly when at
least one (non-null-id) well has a record that month; each cell is the
arithmetic MEAN of the matching records' totals (`pivot_table`'s
default aggregation) — so it equals the record's total as-is exactly
when the (month, well) pair has a single record. -/
theorem C4_pivot_mean_aggregation :
    ∀ (vols : List VolN) (m : ℕ) (w : String) (r : VolN),
      (m ∈ pivotMonths vols ↔
        ∃ r2 ∈ vols, r2.wid.isSome = true ∧ r2.start_month = m) ∧
      (groupMW vols m w = [r] → cellOf vols m w = some r.total) ∧
      (groupMW vols m w ≠ [] →
        cellOf vols m w =
          some (((groupMW vols m w).map (fun x => x.total)).sum /
            ((groupMW vols m w).length : ℚ))) := by
  intro vols m w r
  refine ⟨?_, ?_, ?_⟩
  · simp only [pivotMonths, List.mem_insertionSort, List.mem_dedup,
      List.mem_map, validV, List.mem_filter]
    constructor
    · rintro ⟨a, ⟨ha, hs⟩, hm⟩; exact ⟨a, ha, hs, hm⟩
    · rintro ⟨a, ha, hs, hm⟩; exact ⟨a, ⟨ha, hs⟩, hm⟩
  · intro h
    rw [cellOf, h]
    norm_num
  · intro h
    have hlen : ¬ (groupMW vols m w).length = 0 := by
      simpa [List.length_eq_zero] using h
    rw [cellOf, if_neg hlen]

/-- Witness for C4: a (month, well) pair with a single record gets that
record's total as-is. -/
theorem C4_single_record_witness :
    groupMW [rA] 0 "07" = [rA] ∧ cellOf [rA] 0 "07" = some rA.total ∧
    0 ∈ pivotMonths [rA] := by
  have hg : groupMW [rA] 0 "07" = [rA] := by decide
  refine ⟨hg, (C4_pivot_mean_aggregation [rA] 0 "07" rA).2.1 hg, ?_⟩
  exact (C4_pivot_mean_aggregation [rA] 0 "07" rA).1.mpr ⟨rA, by decide, by decide, rfl⟩

/-! ### Claim C7 -/

/-- Claim C7: after pivoting and `fillna(0)`, every cell of the pivot
grid holds a value (no nulls), and the number of columns equals the
number of distinct (non-null) well ids present in the Volume table. -/
theorem C7_pivot_filled_columns :
    ∀ (vols : List VolN),
      (∀ m ∈ pivotMonths vols, ∀ w ∈ sortedWids vols,
        (filledCell vols m w).isSome = true) ∧
      (sortedWids vols).length = (vols.filterMap (fun r => r.wid)).toFinset.card := by
  intro vols
  constructor
  · intro m _ w _
    rfl
  · rw [sortedWids, (List.perm_insertionSort _ _).length_eq, List.card_toFinset]

/-- Witness for C7 at a one-row volume table: the filled cell on the
grid holds a value and there is exactly one column. -/
theorem C7_filled_witness :
    0 ∈ pivotMonths [rA] ∧ "07" ∈ sortedWids [rA] ∧
    (filledCell [rA] 0 "07").isSome = true ∧
    (sortedWids [rA]).length = ([rA].filterMap (fun r => r.wid)).toFinset.card := by
  have h1 : 0 ∈ pivotMonths [rA] := by decide
  have h2 : "07" ∈ sortedWids [rA] := by decide
  exact ⟨h1, h2, (C7_pivot_filled_columns [rA]).1 0 h1 "07" h2,
    (C7_pivot_filled_columns [rA]).2⟩

/-! ### Claim C6 -/

lemma sXY_comm (x y : List ℚ) : sXY x y = sXY y x := by
  unfold sXY
  rw [min_comm, List.zipWith_comm_of_comm _ mul_comm x y, mul_comm x.sum y.sum]

lemma corrE_comm (x y : List ℚ) : corrE x y = corrE y x := by
  unfold corrE
  rw [sXY_comm x y, mul_comm (sXY x x) (sXY y y)]

lemma corrE_self (x : List ℚ) (h : 0 < sXY x x) : corrE x x = some 1 := by
  unfold corrE
  rw [if_neg (mul_pos h h).ne']
  have hx : (0 : ℝ) < (sXY x x : ℝ) := by exact_mod_cast h
  rw [show ((sXY x x * sXY x x : ℚ) : ℝ) = (sXY x x : ℝ) * (sXY x x : ℝ) by
    push_cast; ring]
  rw [Real.sqrt_mul_self hx.le, div_self hx.ne']

lemma getD_map_of_lt {α β : Type} (l : List α) (f : α → β) (i : ℕ) (d : β)
    (a : α) (h : i < l.length) : (l.map f).getD i d = f (l.getD i a) := by
  induction l generalizing i with
  | nil => simp at h
  | cons b t ih =>
      cases i with
      | zero => rfl
      | succ n =>
          simp only [List.map_cons, List.getD_cons_succ]
          exact ih n (by simpa using h)

lemma corrMatrix_row (cols : List (List ℚ)) (i : ℕ) (h : i < cols.length) :
    (corrMatrix cols).getD i [] =
      cols.map (fun y => corrE (cols.getD i []) y) := by
  unfold corrMatrix
  rw [getD_map_of_lt cols _ i [] [] h]

lemma corrMatrix_entry (cols : List (List ℚ)) (i j : ℕ)
    (hi : i < cols.length) (hj : j < cols.length) :
    ((corrMatrix cols).getD i []).getD j none =
      corrE (cols.getD i []) (cols.getD j []) := by
  rw [corrMatrix_row cols i hi, getD_map_of_lt cols _ j none [] hj]

lemma corrMatrix_entry_out (cols : List (List ℚ)) (i j : ℕ)
    (h : cols.length ≤ i ∨ cols.length ≤ j) :
    ((corrMatrix cols).getD i []).getD j none = none := by
  rcases h with h | h
  · have hlen : (corrMatrix cols).length ≤ i := by
      simpa [corrMatrix] using h
    rw [List.getD_eq_default _ _ hlen]
    simp
  · by_cases hi : i < cols.length
    · have hlen : ((corrMatrix cols).getD i []).length ≤ j := by
        rw [corrMatrix_row cols i hi, List.length_map]
        exact h
      exact List.getD_eq_default _ _ hlen
    · have hlen : (corrMatrix cols).length ≤ i := by
        simp only [corrMatrix, List.length_map]
        omega
      rw [List.getD_eq_default _ _ hlen]
      simp

/-- Counterexample to C6 as stated: run on a concrete input whose merged
table has a single overlapping month (one event in month 0, one volume
record of well `07` in month 0), every column of `merged_final` has zero
variance, so `DataFrame.corr` yields NaN everywhere — in particular the
diagonal entries are null, not exactly 1, before the nulling step. -/
theorem C6_constant_column_cex :
    corrPerWell [⟨0, 3, 0, 0, 0⟩] [rA] = [[none, none], [none, none]] ∧
    ((none : Option ℝ) ≠ some 1) := by
  have h4 : mergedMonths [⟨0, 3, 0, 0, 0⟩] [rA] = [0] := by decide
  have h2 : sortedWids [rA] = ["07"] := by decide
  have hc : monthCount [⟨0, 3, 0, 0, 0⟩] 0 = 1 := by decide
  have h5 : eventsSeries [⟨0, 3, 0, 0, 0⟩] [rA] = [1] := by
    simp [eventsSeries, h4, hc]
  have hg : groupMW [rA] 0 "07" = [rA] := by decide
  have h6 : cellOf [rA] 0 "07" = some 0 := by
    rw [cellOf, hg]
    norm_num [rA]
  have h7 : wellSeries [⟨0, 3, 0, 0, 0⟩] [rA] "07" = [0] := by
    simp [wellSeries, h4, h6]
  have h8 : mergedCols [⟨0, 3, 0, 0, 0⟩] [rA] = [[1], [0]] := by
    simp [mergedCols, corrIndexL, h2, labelSeries, h5, h7]
  have hs1 : sXY [(1 : ℚ)] [1] = 0 := by norm_num [sXY]
  have hs0 : sXY [(0 : ℚ)] [0] = 0 := by norm_num [sXY]
  constructor
  · rw [corrPerWell, h8]
    simp [corrMatrix, corrE, hs1, hs0]
  · simp

/-- Claim C6 amended: the correlation matrix is symmetric
(`corr(A,B) = corr(B,A)`, including out-of-range defaults); a diagonal
entry equals exactly 1 before the nulling step whenever its column has
nonzero variance (a zero-variance column yields null instead); and the
nulling step maps a coefficient to null exactly when it was null (NaN)
or exactly 1 — so every coefficient that was exactly 1, including every
defined diagonal entry, is null afterwards. -/
theorem C6_corr_matrix_props :
    ∀ (cols : List (List ℚ)) (i j : ℕ),
      ((corrMatrix cols).getD i []).getD j none =
        ((corrMatrix cols).getD j []).getD i none ∧
      (i < cols.length → 0 < sXY (cols.getD i []) (cols.getD i []) →
        ((corrMatrix cols).getD i []).getD i none = some 1) ∧
      (∀ o : Option ℝ, nullOnes o = none ↔ o = none ∨ o = some 1) := by
  intro cols i j
  refine ⟨?_, ?_, ?_⟩
  · by_cases hi : i < cols.length
    · by_cases hj : j < cols.length
      · rw [corrMatrix_entry cols i j hi hj, corrMatrix_entry cols j i hj hi,
          corrE_comm]
      · rw [corrMatrix_entry_out cols i j (Or.inr (by omega)),
          corrMatrix_entry_out cols j i (Or.inl (by omega))]
    · rw [corrMatrix_entry_out cols i j (Or.inl (by omega)),
        corrMatrix_entry_out cols j i (Or.inr (by omega))]
  · intro hi hpos
    rw [corrMatrix_entry cols i i hi hi]
    exact corrE_self _ hpos
  · intro o
    cases o with
    | none => simp [nullOnes]
    | some v =>
        by_cases hv : v = 1
        · subst hv
          simp [nullOnes]
        · simp [nullOnes, hv]

/-- Witness for C6: a genuine two-observation column `[0, 1]` has
positive variance and its diagonal correlation entry is exactly 1. -/
theorem C6_diagonal_witness :
    (0 : ℚ) < sXY [0, 1] [0, 1] ∧
    ((corrMatrix [[0, 1]]).getD 0 []).getD 0 none = some 1 := by
  have hs : (0 : ℚ) < sXY [0, 1] [0, 1] := by norm_num [sXY]
  exact ⟨hs, (C6_corr_matrix_props [[0, 1]] 0 0).2.1 (by norm_num)
    (by simpa using hs)⟩

/-! ### Claim C8 -/

/-- Counterexample to C8 as stated: with ALL THREE inputs supplied but a
volume row whose `HOLE_NAME` has two delimiters, the pipeline body is
entered and raises at the split assignment, so the three charts are NOT
rendered — "supplied" does not imply "charts executed". -/
theorem C8_supplied_but_no_charts_cex :
    (appRender (some [⟨0, 1, 0, 0, 0⟩]) (some [⟨"PGKYP-07", "producer", 0, 0, 0⟩])
      (some [⟨"A-B-C", 0, 0, 0, 0, 0⟩]) 1).msLoaded = true ∧
    (appRender (some [⟨0, 1, 0, 0, 0⟩]) (some [⟨"PGKYP-07", "producer", 0, 0, 0⟩])
      (some [⟨"A-B-C", 0, 0, 0, 0, 0⟩]) 1).wlLoaded = true ∧
    (appRender (some [⟨0, 1, 0, 0, 0⟩]) (some [⟨"PGKYP-07", "producer", 0, 0, 0⟩])
      (some [⟨"A-B-C", 0, 0, 0, 0, 0⟩]) 1).vfLoaded = true ∧
    (appRender (some [⟨0, 1, 0, 0, 0⟩]) (some [⟨"PGKYP-07", "producer", 0, 0, 0⟩])
      (some [⟨"A-B-C", 0, 0, 0, 0, 0⟩]) 1).info = false ∧
    ¬ chartsRendered (appRender (some [⟨0, 1, 0, 0, 0⟩])
      (some [⟨"PGKYP-07", "producer", 0, 0, 0⟩])
      (some [⟨"A-B-C", 0, 0, 0, 0, 0⟩]) 1) := by
  have hnorm : normalizeVols [⟨"A-B-C", 0, 0, 0, 0, 0⟩] =
      Except.error splitErrMsg := by decide
  refine ⟨rfl, rfl, rfl, rfl, ?_⟩
  intro hcharts
  rcases hcharts with ⟨out, hout⟩
  simp only [appRender, appPipeline, pipeline, hnorm, Except.map,
    Option.some.injEq] at hout
  cases hout

/-- Claim C8 amended: whenever at least one input is missing the status
prompt is rendered and no pipeline computation occurs; when all three
inputs are supplied the pipeline body runs (and the prompt is not
shown), and the three charts are rendered iff that run additionally
completes without raising (the volume split assignment can raise after
all files are supplied). -/
theorem C8_gating_and_charts :
    ∀ (msO : Option (List MSEvent)) (wlO : Option (List WellRow))
      (vfO : Option (List VolRaw)) (mmin : ℚ),
      ((appRender msO wlO vfO mmin).info = false ↔
        msO.isSome = true ∧ wlO.isSome = true ∧ vfO.isSome = true) ∧
      ((appRender msO wlO vfO mmin).run = none ↔
        ¬ (msO.isSome = true ∧ wlO.isSome = true ∧ vfO.isSome = true)) ∧
      (chartsRendered (appRender msO wlO vfO mmin) ↔
        ∃ ms wl vf out, msO = some ms ∧ wlO = some wl ∧ vfO = some vf ∧
          appPipeline ms wl vf mmin = Except.ok out) := by
  intro msO wlO vfO mmin
  cases msO <;> cases wlO <;> cases vfO <;>
    simp [appRender, chartsRendered]

/-- Witness for C8: with all three inputs supplied (even empty tables)
the prompt is off and the pipeline body ran; with one missing, the
prompt is on and no run occurs. -/
theorem C8_all_loaded_witness :
    (appRender (some []) (some []) (some []) 1).info = false ∧
    ((appRender (some []) (some []) (some []) 1).run = none ↔ False) ∧
    ((appRender none (some []) (some []) 1).run = none ↔ True) := by
  refine ⟨(C8_gating_and_charts (some []) (some []) (some []) 1).1.mpr
    ⟨rfl, rfl, rfl⟩, ?_, ?_⟩
  · rw [(C8_gating_and_charts (some []) (some []) (some []) 1).2.1]
    simp
  · rw [(C8_gating_and_charts none (some []) (some []) 1).2.1]
    simp
